import Mathlib

/-
Verification development for the obsidian-perplexity-plugin spell-check core.

Shallow embedding of:
  - src/src/services/SpellCheckStrategy.ts
      (FullChunkedStrategy, IncrementalStrategy, AutoStrategy,
       SpellCheckStrategyFactory)
  - the CacheManager service (src/unnamed/part_004)
  - the shared result types (src/src/types/index.ts)

Modelling conventions:
  - JavaScript strings are Lean `String`s (the sources only ever measure and
    slice; for the ASCII content exercised here, UTF-16 length and char length
    agree).
  - JavaScript numbers holding line counts / sizes are `Nat`; timestamps and
    ttl durations are `Int` (`Date.now()` differences may be compared against
    arbitrary ttl values); the error-density computation, a genuine float
    division, is carried out in `ℚ` (it only ever divides small integers).
  - `async` functions that can reject are embedded as `Except String _`;
    a caught rejection (try/catch whose catch only logs) becomes a total
    function on the `Except` value.
  - The injected checker `service.checkSpellingAndFormat(content, language)`
    becomes `checker : String → Except String SpellCheckResult`; the
    `language` argument is threaded through unchanged by every strategy and
    is therefore not modelled separately.
  - Observable callback activity (checker invocations, onProgress,
    onSectionComplete, onModeSwitchSuggestion) is recorded as an event list.
-/

/- ===== Result data model (src/src/types/index.ts) ===== -/

/-- One entry of `SpellCheckResult.corrections`: `{original, suggested, line,
confidence, context?}`. -/
structure Correction where
  original : String
  suggested : String
  line : Nat
  confidence : ℚ
  context : Option String
deriving DecidableEq, Repr

/-- One entry of `SpellCheckResult.formattingIssues`: `{issue, line,
suggestion, fixable, originalText?, suggestedText?}`. -/
structure FormattingIssue where
  issue : String
  line : Nat
  suggestion : String
  fixable : Bool
  originalText : Option String
  suggestedText : Option String
deriving DecidableEq, Repr

/-- Model of `SpellCheckResult` from src/src/types/index.ts. -/
structure SpellCheckResult where
  corrections : List Correction
  formattingIssues : List FormattingIssue
deriving DecidableEq, Repr

/-- The subset of `PerplexityPluginSettings` the strategies read.  Each field
is `Option` to model a possibly-`undefined` JavaScript property. -/
structure Settings where
  fullModeChunkSize : Option Nat
  fullModeShowProgress : Option Bool
  autoModeThreshold : Option ℚ
  incrementalModeSectionSize : Option Nat
deriving DecidableEq, Repr

/-- Model of `SpellCheckContext`: which optional callbacks are supplied, plus the
optional settings object. -/
structure Ctx where
  settings : Option Settings
  hasOnProgress : Bool
  hasOnSectionComplete : Bool
  hasOnModeSwitchSuggestion : Bool
deriving DecidableEq, Repr

/-- Observable callback activity of one strategy run. -/
inductive Event where
  | checkerCall (content : String)
  | progress (pct : Int) (msg : String)
  | sectionComplete (idx : Nat) (total : Nat) (result : SpellCheckResult)
  | modeSwitchSuggestion (mode : String)
deriving DecidableEq, Repr

/-- Decidable equality for embedded async outcomes. -/
instance {ε α : Type} [DecidableEq ε] [DecidableEq α] : DecidableEq (Except ε α)
  | .ok a, .ok b =>
    if h : a = b then .isTrue (by rw [h]) else .isFalse (by simp [h])
  | .ok _, .error _ => .isFalse (by simp)
  | .error _, .ok _ => .isFalse (by simp)
  | .error e, .error f =>
    if h : e = f then .isTrue (by rw [h]) else .isFalse (by simp [h])

/-- Result of one `check` call: the resolved/rejected value plus the events
the run produced. -/
structure CheckOutput where
  result : Except String SpellCheckResult
  events : List Event
deriving DecidableEq, Repr

/- ===== Small JavaScript helpers ===== -/

/-- Model of `x || dflt` for a possibly-undefined JS number: `0` and `undefined` are
falsy. -/
def jsOrNat (v : Option Nat) (dflt : Nat) : Nat :=
  match v with
  | some n => if n = 0 then dflt else n
  | none => dflt

/-- Model of `x || dflt` for a possibly-undefined JS number modelled in `ℚ`. -/
def jsOrQ (v : Option ℚ) (dflt : ℚ) : ℚ :=
  match v with
  | some q => if q = 0 then dflt else q
  | none => dflt

/-- Model of `Math.round`: round half toward positive infinity. -/
def jsRound (q : ℚ) : Int :=
  Int.floor (q + 1 / 2)

/-- Model of `Math.ceil(a / b)` for natural `a`, positive natural `b`. -/
def jsCeilDiv (a b : Nat) : Nat :=
  (a + b - 1) / b

/-- JS `s.substring(a, b)`: clamps both indices to `[0, length]` and swaps
them when out of order. -/
def jsSubstring (s : String) (a b : Nat) : String :=
  let len := s.length
  let a1 := min a len
  let b1 := min b len
  let lo := min a1 b1
  let hi := max a1 b1
  String.mk ((s.data.drop lo).take (hi - lo))

/-- JS `s.split('\n')` on the character list: always returns at least one
piece; a trailing newline yields a trailing empty piece. -/
def splitNewlineList : List Char → List (List Char)
  | [] => [[]]
  | c :: rest =>
    let r := splitNewlineList rest
    if c = '\n' then [] :: r
    else (c :: r.headD []) :: r.tail

/-- JS `s.split('\n')`. -/
def jsSplitNewline (s : String) : List String :=
  (splitNewlineList s.data).map String.mk

/-- Model of `section.split('\n').length`, the newline-delimited line count the
strategies use as a per-chunk line offset. -/
def linesOf (s : String) : Nat :=
  (jsSplitNewline s).length

/-- Test for `Except` success. -/
def isOkE {ε α : Type} : Except ε α → Bool
  | .ok _ => true
  | .error _ => false

/- ===== CacheManager (src/unnamed/part_004) ===== -/

/-- Model of `CacheEntry`: `{value, timestamp, ttl}`. -/
structure CacheEntry (V : Type) where
  value : V
  timestamp : Int
  ttl : Int
deriving DecidableEq, Repr

/-- The in-memory `Map<string, CacheEntry>` as an insertion-ordered
association list with unique keys. -/
abbrev Cache (V : Type) : Type := List (String × CacheEntry V)

/-- Model of `Map.get`. -/
def mapGet {V : Type} : Cache V → String → Option (CacheEntry V)
  | [], _ => none
  | (k1, e) :: rest, k => if k1 = k then some e else mapGet rest k

/-- Model of `Map.delete` (drops the entry with the given key). -/
def mapDelete {V : Type} : Cache V → String → Cache V
  | [], _ => []
  | (k1, e) :: rest, k =>
    if k1 = k then mapDelete rest k else (k1, e) :: mapDelete rest k

/-- Model of `Map.set`: overwrite in place when the key exists, else append. -/
def mapSet {V : Type} : Cache V → String → CacheEntry V → Cache V
  | [], k, e => [(k, e)]
  | (k1, e1) :: rest, k, e =>
    if k1 = k then (k, e) :: rest else (k1, e1) :: mapSet rest k e

/-- Model of `this.app.vault.adapter.write(...)` inside `saveCache`; `writeOk` says
whether the underlying storage write succeeds.  `saveCache` has no
try/catch, so a failed write rejects. -/
def saveCache (writeOk : Bool) : Except String Unit :=
  if writeOk then .ok () else .error "storage write failed"

/-- Model of `CacheManager.loadCache`: the try body (adapter read + `JSON.parse`) is
summarised by its outcome `r` (`error` = read or parse threw; `ok none` =
falsy stored blob, no assignment; `ok (some c)` = parsed entries).  The
catch clause only logs and resets the cache to empty, so the call always
resolves. -/
def loadCacheE {V : Type} (r : Except String (Option (Cache V))) (current : Cache V) :
    Except String (Cache V) :=
  match r with
  | .error _ => .ok []
  | .ok none => .ok current
  | .ok (some parsed) => .ok parsed

/-- Model of `CacheManager.get(key, ttl)`.  NOTE (faithful to the source): the
staleness test is `age > entry.ttl` against the entry's stored ttl; the
`ttl` argument is never read.  Eviction mutates the map and then awaits
`saveCache`, whose rejection propagates. -/
def cacheGet {V : Type} (writeOk : Bool) (c : Cache V) (key : String) (ttl : Int)
    (now : Int) : Except String (Option V × Cache V) :=
  match mapGet c key with
  | none => .ok (none, c)
  | some entry =>
    if now - entry.timestamp > entry.ttl then
      match saveCache writeOk with
      | .ok _ => .ok (none, mapDelete c key)
      | .error e => .error e
    else .ok (some entry.value, c)

/-- Model of `CacheManager.set(key, value, ttl)`: store `{value, timestamp: now, ttl}`
then await `saveCache` (whose rejection propagates). -/
def cacheSet {V : Type} (writeOk : Bool) (c : Cache V) (key : String) (value : V)
    (ttl : Int) (now : Int) : Except String (Cache V) :=
  let c1 := mapSet c key ⟨value, now, ttl⟩
  match saveCache writeOk with
  | .ok _ => .ok c1
  | .error e => .error e

/-- JS array-destructuring `const [key] of ...` applied to a string yields its
first character (as a 1-character string). -/
def jsFirstChar (s : String) : String :=
  String.mk (s.data.take 1)

/-- Substring test built on `List.isPrefixOf`: `RegExp(pattern).test(s)` for a
metacharacter-free pattern is exactly "pattern occurs in s". -/
def listHasSub (pat : List Char) : List Char → Bool
  | [] => pat.isEmpty
  | c :: rest => pat.isPrefixOf (c :: rest) || listHasSub pat rest

/-- Model of `new RegExp(pattern).test(s)`, modelled for literal (metacharacter-free)
patterns as substring occurrence. -/
def regexTest (pattern s : String) : Bool :=
  listHasSub pattern.data s.data

/-- The loop body of `CacheManager.invalidate`, faithful to the source line
`for (const [key] of this.cache.keys())`: each iteration destructures the
FIRST CHARACTER of a key string, tests the regex against that single
character, and deletes that single-character key.  Iteration is over the
snapshot of keys; deleting an already-absent key is a no-op, so this agrees
with JS live Map iteration. -/
def invalidateLoop {V : Type} (pattern : String) : List String → Cache V → Cache V
  | [], c => c
  | k :: rest, c =>
    let k1 := jsFirstChar k
    invalidateLoop pattern rest (if regexTest pattern k1 then mapDelete c k1 else c)

/-- Model of `CacheManager.invalidate(pattern)`. -/
def cacheInvalidate {V : Type} (writeOk : Bool) (c : Cache V) (pattern : String) :
    Except String (Cache V) :=
  let c1 := invalidateLoop pattern (c.map Prod.fst) c
  match saveCache writeOk with
  | .ok _ => .ok c1
  | .error e => .error e

/-- Model of `CacheManager.clear()`. -/
def cacheClear {V : Type} (writeOk : Bool) (_c : Cache V) : Except String (Cache V) :=
  match saveCache writeOk with
  | .ok _ => .ok []
  | .error e => .error e

/- ===== FullChunkedStrategy (src/src/services/SpellCheckStrategy.ts) ===== -/

/-- The whitespace class JS `trim` removes (restricted to the ASCII
whitespace the documents here contain). -/
def isJsSpace (c : Char) : Bool :=
  c = ' ' || c = '\t' || c = '\n' || c = '\r'

/-- JS `s.trim()`: strip leading and trailing whitespace. -/
def jsTrim (s : String) : String :=
  String.mk (((s.data.dropWhile isJsSpace).reverse.dropWhile isJsSpace).reverse)

/-- The lookahead of the header split regex: does the text after the
newline start with a markdown header marker plus a space? -/
def headerFollows : List Char → Bool
  | '#' :: ' ' :: _ => true
  | '#' :: '#' :: ' ' :: _ => true
  | _ => false

/-- The header split of `FullChunkedStrategy.splitByHeaders` on the character
list: cut (consuming the newline) at every newline whose remainder starts a
markdown header. -/
def splitAtHeaders : List Char → List (List Char)
  | [] => [[]]
  | c :: rest =>
    let r := splitAtHeaders rest
    if c = '\n' ∧ headerFollows rest then [] :: r
    else (c :: r.headD []) :: r.tail

/-- The greedy accumulation loop of `FullChunkedStrategy.splitByHeaders`:
`currentSection` is flushed (trimmed) whenever appending the next piece
would exceed `chunkSize` and the buffer is non-empty (JS truthiness);
otherwise the piece is appended with a two-newline joiner (no joiner into
an empty buffer). -/
def packSections (chunkSize : Nat) : List String → String → List String
  | [], current => if current ≠ "" then [jsTrim current] else []
  | piece :: rest, current =>
    if current.length + piece.length > chunkSize ∧ current ≠ "" then
      jsTrim current :: packSections chunkSize rest piece
    else
      packSections chunkSize rest
        (if current = "" then piece else current ++ "\n\n" ++ piece)

/-- Model of `FullChunkedStrategy.splitByHeaders(content, chunkSize)`. -/
def splitByHeaders (content : String) (chunkSize : Nat) : List String :=
  packSections chunkSize ((splitAtHeaders content.data).map String.mk) ""

/-- Model of `settings?.fullModeChunkSize || 4000`. -/
def chunkSizeOf (ctx : Ctx) : Nat :=
  jsOrNat (ctx.settings.bind fun s => s.fullModeChunkSize) 4000

/-- Model of `settings?.fullModeShowProgress !== false`. -/
def showProgressOf (ctx : Ctx) : Bool :=
  match ctx.settings.bind fun s => s.fullModeShowProgress with
  | some false => false
  | _ => true

/-- The chunk list a `FullChunkedStrategy.check` call iterates in its
multi-chunk branch. -/
def sectionsOf (ctx : Ctx) (content : String) : List String :=
  splitByHeaders content (chunkSizeOf ctx)

/-- Shift the `line` field of every correction and formatting issue by
`offset`, keeping the other fields. -/
def adjustResult (offset : Nat) (r : SpellCheckResult) : SpellCheckResult :=
  { corrections := r.corrections.map fun c => { c with line := c.line + offset }
    formattingIssues := r.formattingIssues.map fun i => { i with line := i.line + offset } }

/-- The per-section loop of `FullChunkedStrategy.check`.  Arguments after the
checker: progress reporting enabled, `context.onProgress` present,
`context.onSectionComplete` present, `sections.length`, then the remaining
sections, the running index `i`, and `lineOffset`.  On a checker rejection
the catch clause only logs: the section contributes nothing and — because
the rejection aborts the try block before the offset update runs — the
line offset is NOT advanced.  The inter-chunk `setTimeout` delay has no
observable effect in the model. -/
def fullLoop (checker : String → Except String SpellCheckResult)
    (sp hasProg hasSec : Bool) (total : Nat) :
    List String → Nat → Nat → SpellCheckResult × List Event
  | [], _, _ => (⟨[], []⟩, [])
  | sec :: rest, i, offset =>
    let progEvs : List Event :=
      if sp && hasProg then
        [Event.progress (jsRound ((((i : ℚ) + 1) / (total : ℚ)) * 100))
          ("Checking section " ++ toString (i + 1) ++ " of " ++ toString total)]
      else []
    match checker sec with
    | .ok r =>
      let adj := adjustResult offset r
      let secEvs : List Event :=
        if hasSec then [Event.sectionComplete (i + 1) total adj] else []
      let tail := fullLoop checker sp hasProg hasSec total rest (i + 1)
        (offset + linesOf sec)
      (⟨adj.corrections ++ tail.fst.corrections,
        adj.formattingIssues ++ tail.fst.formattingIssues⟩,
       progEvs ++ [Event.checkerCall sec] ++ secEvs ++ tail.snd)
    | .error _ =>
      let tail := fullLoop checker sp hasProg hasSec total rest (i + 1) offset
      (tail.fst, progEvs ++ [Event.checkerCall sec] ++ tail.snd)

/-- Model of `FullChunkedStrategy.check(content, language, context)`. -/
def fullChunkedCheck (checker : String → Except String SpellCheckResult)
    (ctx : Ctx) (content : String) : CheckOutput :=
  if content.length ≤ chunkSizeOf ctx then
    { result := checker content, events := [Event.checkerCall content] }
  else
    let secs := sectionsOf ctx content
    let run := fullLoop checker (showProgressOf ctx) ctx.hasOnProgress
      ctx.hasOnSectionComplete secs.length secs 0 0
    { result := .ok run.fst, events := run.snd }

/- ===== IncrementalStrategy ===== -/

/-- The session state of an `IncrementalStrategy` instance after `check` has
initialised it. -/
structure IncState where
  sectionSize : Nat
  currentSection : Nat
  totalSections : Nat
  allResults : SpellCheckResult
  originalContent : String
deriving DecidableEq, Repr

/-- The slice of the document the current section covers
(`content.substring(startPos, endPos)`). -/
def sectionContentOf (st : IncState) (content : String) : String :=
  let startPos := st.currentSection * st.sectionSize
  let endPos := min (startPos + st.sectionSize) content.length
  jsSubstring content startPos endPos

/-- Model of `IncrementalStrategy.checkNextSection(content, language, context)`:
returns the section's own (offset-adjusted) result, the updated session
state, and the events.  On a checker rejection the catch clause returns an
empty result; no state field is written. -/
def checkNextSection (checker : String → Except String SpellCheckResult)
    (st : IncState) (content : String) (ctx : Ctx) :
    SpellCheckResult × IncState × List Event :=
  if st.totalSections ≤ st.currentSection then
    (st.allResults, st, [])
  else
    let startPos := st.currentSection * st.sectionSize
    let sectionContent := sectionContentOf st content
    let progEvs : List Event :=
      if ctx.hasOnProgress then
        [Event.progress
          (jsRound ((((st.currentSection : ℚ) + 1) / (st.totalSections : ℚ)) * 100))
          ("Checking " ++ (if st.currentSection = 0 then "first" else "next")
            ++ " section")]
      else []
    match checker sectionContent with
    | .error _ => (⟨[], []⟩, st, progEvs ++ [Event.checkerCall sectionContent])
    | .ok r =>
      let lineOffset := (jsSplitNewline (jsSubstring content 0 startPos)).length
      let adj := adjustResult lineOffset r
      let st1 : IncState :=
        { st with
          currentSection := st.currentSection + 1
          allResults :=
            ⟨st.allResults.corrections ++ adj.corrections,
             st.allResults.formattingIssues ++ adj.formattingIssues⟩ }
      let secEvs : List Event :=
        if ctx.hasOnSectionComplete then
          [Event.sectionComplete st1.currentSection st.totalSections adj]
        else []
      (adj, st1, progEvs ++ [Event.checkerCall sectionContent] ++ secEvs)

/-- Model of `IncrementalStrategy.check`: (re)initialise the session (section size
defaults to 5000 through the JS falsy-or) and run the first
`checkNextSection`. -/
def incCheck (checker : String → Except String SpellCheckResult)
    (settings : Settings) (content : String) (ctx : Ctx) :
    SpellCheckResult × IncState × List Event :=
  let sectionSize := jsOrNat settings.incrementalModeSectionSize 5000
  let st0 : IncState :=
    { sectionSize := sectionSize
      currentSection := 0
      totalSections := jsCeilDiv content.length sectionSize
      allResults := ⟨[], []⟩
      originalContent := content }
  checkNextSection checker st0 content ctx

/- ===== AutoStrategy ===== -/

/-- The first min(5000, length) characters of the document. -/
def autoFirstSection (content : String) : String :=
  jsSubstring content 0 (min 5000 content.length)

/-- Model of `settings.autoModeThreshold || 3`. -/
def thresholdOf (settings : Settings) : ℚ :=
  jsOrQ settings.autoModeThreshold 3

/-- The error density: errors divided by (section length / 1000), as an exact
rational (meaningful only for a non-empty first section). -/
def errorDensityOf (r : SpellCheckResult) (len : Nat) : ℚ :=
  ((r.corrections.length + r.formattingIssues.length : Nat) : ℚ) / ((len : ℚ) / 1000)

/-- Model of `AutoStrategy.check(content, language, context)`.  The density division
is JS float arithmetic: with an empty first section it is `NaN`
(`errorCount = 0`, so the threshold comparison is false) or positive
infinity (`errorCount > 0`, so the comparison with a finite threshold is
true); the branch on `firstSection.length = 0` encodes exactly that.  The
human-readable `suggestionReason` string is abstracted away in the
`modeSwitchSuggestion` event.  A checker rejection is not caught and
propagates. -/
def autoCheck (checker : String → Except String SpellCheckResult)
    (settings : Settings) (ctx : Ctx) (content : String) : CheckOutput :=
  let firstSection := autoFirstSection content
  let progEvs1 : List Event :=
    if ctx.hasOnProgress then
      [Event.progress 10 "Analyzing document quality..."] else []
  match checker firstSection with
  | .error e =>
    { result := .error e, events := progEvs1 ++ [Event.checkerCall firstSection] }
  | .ok firstResult =>
    let errorCount := firstResult.corrections.length + firstResult.formattingIssues.length
    let shouldRunFull : Bool :=
      if firstSection.length = 0 then decide (0 < errorCount)
      else decide (errorDensityOf firstResult firstSection.length ≥ thresholdOf settings)
    let suggEvs : List Event :=
      if shouldRunFull && ctx.hasOnModeSwitchSuggestion then
        [Event.modeSwitchSuggestion "full"] else []
    let baseEvs := progEvs1 ++ [Event.checkerCall firstSection] ++ suggEvs
    if content.length ≤ 5000 then
      { result := .ok firstResult, events := baseEvs }
    else if shouldRunFull then
      { result := .ok firstResult
        events := baseEvs ++
          (if ctx.hasOnProgress then
            [Event.progress 100 "High error density detected - suggestion shown"]
          else []) }
    else
      { result := .ok firstResult
        events := baseEvs ++
          (if ctx.hasOnProgress then
            [Event.progress 100 "Document quality is good - first section checked"]
          else []) }

/- ===== SpellCheckStrategyFactory ===== -/

/-- Which strategy class `createStrategy` instantiates. -/
inductive StrategyKind where
  | fullChunked
  | incremental
  | auto
deriving DecidableEq, Repr

/-- Model of `SpellCheckStrategyFactory.createStrategy(mode, service, settings)`:
`switch (mode)` over the three recognised names; the default branch throws
an unknown-mode error. -/
def createStrategy (mode : String) : Except String StrategyKind :=
  if mode = "full" then .ok .fullChunked
  else if mode = "incremental" then .ok .incremental
  else if mode = "auto" then .ok .auto
  else .error ("Unknown spell check mode: " ++ mode)

/- ===== Derived observations used by the claims ===== -/

/-- The resolved value of a run (empty when it rejected). -/
def checkResultOf (o : CheckOutput) : SpellCheckResult :=
  match o.result with
  | .ok r => r
  | .error _ => ⟨[], []⟩

/-- The contents the injected checker was called on, in order. -/
def checkerCallsOf (evs : List Event) : List String :=
  evs.filterMap fun e =>
    match e with
    | .checkerCall s => some s
    | _ => none

/-- Line count of all chunks before index `i` (per-chunk newline-delimited
line counts summed), regardless of checker outcome — the offset rule the
spec describes. -/
def priorLinesAll (secs : List String) (i : Nat) : Nat :=
  ((secs.take i).map linesOf).sum

/-- Line count of the chunks before index `i` whose checker call succeeds —
the offset the code actually applies. -/
def priorLinesSucc (checker : String → Except String SpellCheckResult)
    (secs : List String) (i : Nat) : Nat :=
  (((secs.take i).filter fun s => isOkE (checker s)).map linesOf).sum

/-- The corrections chunk `i`'s checker call reports (empty when it
rejects). -/
def chunkCorrections (checker : String → Except String SpellCheckResult)
    (secs : List String) (i : Nat) : List Correction :=
  match checker (secs.getD i "") with
  | .ok r => r.corrections
  | .error _ => []

/-- The formatting issues chunk `i`'s checker call reports (empty when it
rejects). -/
def chunkIssues (checker : String → Except String SpellCheckResult)
    (secs : List String) (i : Nat) : List FormattingIssue :=
  match checker (secs.getD i "") with
  | .ok r => r.formattingIssues
  | .error _ => []

/-- Reference merge of a chunk list: walk the chunks in order, skip rejected
ones, adjust a successful chunk by the running offset and advance the
offset by that chunk's line count.  `fullLoop` computes exactly this
result. -/
def specMergeFrom (checker : String → Except String SpellCheckResult) :
    Nat → List String → SpellCheckResult
  | _, [] => ⟨[], []⟩
  | offset, sec :: rest =>
    match checker sec with
    | .ok r =>
      let adj := adjustResult offset r
      let tail := specMergeFrom checker (offset + linesOf sec) rest
      ⟨adj.corrections ++ tail.corrections,
       adj.formattingIssues ++ tail.formattingIssues⟩
    | .error _ => specMergeFrom checker offset rest

/-- The result chunk `j` contributes under the spec's offset rule (cumulative
line count of ALL prior chunks). -/
def resultAtIdxAllPrior (checker : String → Except String SpellCheckResult)
    (secs : List String) (j : Nat) : SpellCheckResult :=
  match checker (secs.getD j "") with
  | .ok r => adjustResult (priorLinesAll secs j) r
  | .error _ => ⟨[], []⟩

/-- Concatenate results in order. -/
def unionResults (rs : List SpellCheckResult) : SpellCheckResult :=
  ⟨(rs.map fun r => r.corrections).flatten, (rs.map fun r => r.formattingIssues).flatten⟩

/- ===== Claim-as-stated predicates (phrased from the spec text, kept to be
refuted or compared against the source-derived definitions) ===== -/

/-- Claim C1 as stated: every successful chunk's corrections and issues
appear in the returned result offset by the line count of ALL prior
chunks. -/
def claimC1AllPrior (checker : String → Except String SpellCheckResult)
    (ctx : Ctx) (content : String) : Prop :=
  ∀ i, i < (sectionsOf ctx content).length →
    (∀ c ∈ chunkCorrections checker (sectionsOf ctx content) i,
      ({ c with line := c.line + priorLinesAll (sectionsOf ctx content) i } : Correction)
        ∈ (checkResultOf (fullChunkedCheck checker ctx content)).corrections) ∧
    (∀ x ∈ chunkIssues checker (sectionsOf ctx content) i,
      ({ x with line := x.line + priorLinesAll (sectionsOf ctx content) i } : FormattingIssue)
        ∈ (checkResultOf (fullChunkedCheck checker ctx content)).formattingIssues)

/-- Claim C2 as stated: with the checker failing exactly at chunk `k`, the
returned result is the union of the other chunks' results carrying the
same adjusted lines as in a fully successful run (offset by ALL prior
chunks). -/
def claimC2FullRunUnion (checker : String → Except String SpellCheckResult)
    (ctx : Ctx) (content : String) (k : Nat) : Prop :=
  checkResultOf (fullChunkedCheck checker ctx content) =
    unionResults
      (((List.range (sectionsOf ctx content).length).filter fun j => j ≠ k).map
        fun j => resultAtIdxAllPrior checker (sectionsOf ctx content) j)

/- ===== Concrete inputs for counterexamples and witnesses ===== -/

/-- Settings fixing a tiny full-mode chunk size of 4 characters. -/
def settings4 : Settings :=
  { fullModeChunkSize := some 4
    fullModeShowProgress := none
    autoModeThreshold := none
    incrementalModeSectionSize := none }

/-- A context with every callback supplied and `settings4`. -/
def ctx4 : Ctx :=
  { settings := some settings4
    hasOnProgress := true
    hasOnSectionComplete := true
    hasOnModeSwitchSuggestion := true }

/-- An 11-character document that `splitByHeaders` cuts at the markdown
header into the two chunks `"aaa"` and `"# b\nccc"`. -/
def doc2 : String := "aaa\n# b\nccc"

/-- A single fixed correction the example checkers report at in-chunk
line 3. -/
def corr3 : Correction :=
  { original := "teh", suggested := "the", line := 3, confidence := 1, context := none }

/-- Checker that succeeds on every chunk with `corr3`. -/
def okChecker : String → Except String SpellCheckResult :=
  fun _ => .ok ⟨[corr3], []⟩

/-- Checker that rejects exactly on the first chunk `"aaa"` of `doc2` and
reports `corr3` on everything else. -/
def failFirstChecker : String → Except String SpellCheckResult :=
  fun s => if s = "aaa" then .error "network error" else .ok ⟨[corr3], []⟩

/-- Settings fixing an incremental section size of 5 characters. -/
def settingsInc5 : Settings :=
  { fullModeChunkSize := none
    fullModeShowProgress := none
    autoModeThreshold := none
    incrementalModeSectionSize := some 5 }

/-- A fixed correction reported at in-chunk line 1. -/
def corr1 : Correction :=
  { original := "ab", suggested := "ba", line := 1, confidence := 1, context := none }

/-- Checker that succeeds on everything with `corr1`. -/
def corr1Checker : String → Except String SpellCheckResult :=
  fun _ => .ok ⟨[corr1], []⟩

/-- The incremental session state right after `incCheck` initialises it for
the two-character document `"ab"` with section size 5. -/
def incSt0 : IncState :=
  { sectionSize := 5
    currentSection := 0
    totalSections := 1
    allResults := ⟨[], []⟩
    originalContent := "ab" }

/-- A one-entry cache: key `"k"`, value 42, written at time 0 with stored
ttl 1000. -/
def c4cache : Cache Nat := [("k", ⟨42, 0, 1000⟩)]

/- ===== Theorems ===== -/

/-- JS split on newline never returns an empty piece list. -/
theorem splitNewlineList_ne_nil (l : List Char) : splitNewlineList l ≠ [] := by
  cases l with
  | nil => simp [splitNewlineList]
  | cons c rest =>
    by_cases h : c = '\n' <;> simp [splitNewlineList, h]

/-- The JS split-piece count is the newline count plus one. -/
theorem length_splitNewlineList (l : List Char) :
    (splitNewlineList l).length = l.count '\n' + 1 := by
  induction l with
  | nil => simp [splitNewlineList]
  | cons c rest ih =>
    by_cases h : c = '\n'
    · simp [splitNewlineList, h, List.count_cons, ih]
    · have hne := splitNewlineList_ne_nil rest
      simp [splitNewlineList, h, List.count_cons]
      omega

/-- The function `linesOf` counts newline characters plus one. -/
theorem linesOf_eq_count (s : String) : linesOf s = s.data.count '\n' + 1 := by
  simp [linesOf, jsSplitNewline, length_splitNewlineList]

/-- The result component of the FullChunked per-section loop is the reference
merge: the events do not feed back into the result. -/
theorem fullLoop_fst (checker : String → Except String SpellCheckResult)
    (sp hasProg hasSec : Bool) (total : Nat) :
    ∀ (secs : List String) (i offset : Nat),
      (fullLoop checker sp hasProg hasSec total secs i offset).fst =
        specMergeFrom checker offset secs := by
  intro secs
  induction secs with
  | nil => intro i offset; rfl
  | cons sec rest ih =>
    intro i offset
    cases hc : checker sec with
    | ok r => simp [fullLoop, specMergeFrom, hc, ih]
    | error e => simp [fullLoop, specMergeFrom, hc, ih]

/-- In the multi-chunk branch, `FullChunkedStrategy.check` resolves with the
reference merge of its chunk list starting at offset 0. -/
theorem fullChunkedCheck_result_of_big
    (checker : String → Except String SpellCheckResult) (ctx : Ctx)
    (content : String) (hbig : chunkSizeOf ctx < content.length) :
    (fullChunkedCheck checker ctx content).result =
      .ok (specMergeFrom checker 0 (sectionsOf ctx content)) := by
  unfold fullChunkedCheck
  rw [if_neg (by omega)]
  simp [fullLoop_fst]

/-- Successful-prior-chunk line counts: cons step for a successful head. -/
theorem priorLinesSucc_cons_ok (checker : String → Except String SpellCheckResult)
    (sec : String) (rest : List String) (i : Nat)
    (h : isOkE (checker sec) = true) :
    priorLinesSucc checker (sec :: rest) (i + 1) =
      linesOf sec + priorLinesSucc checker rest i := by
  simp [priorLinesSucc, List.take_succ_cons, List.filter, h]

/-- Successful-prior-chunk line counts: cons step for a rejected head. -/
theorem priorLinesSucc_cons_err (checker : String → Except String SpellCheckResult)
    (sec : String) (rest : List String) (i : Nat)
    (h : isOkE (checker sec) = false) :
    priorLinesSucc checker (sec :: rest) (i + 1) =
      priorLinesSucc checker rest i := by
  simp [priorLinesSucc, List.take_succ_cons, List.filter, h]

/-- Membership of a successful chunk's corrections in the reference merge,
offset by the base plus the line count of prior successful chunks. -/
theorem mem_corrections_specMergeFrom
    (checker : String → Except String SpellCheckResult) :
    ∀ (secs : List String) (i offset : Nat) (r : SpellCheckResult),
      i < secs.length → checker (secs.getD i "") = .ok r →
      ∀ c ∈ r.corrections,
        ({ c with line := c.line + offset + priorLinesSucc checker secs i } : Correction)
          ∈ (specMergeFrom checker offset secs).corrections := by
  intro secs
  induction secs with
  | nil => intro i offset r hi; simp at hi
  | cons sec rest ih =>
    intro i offset r hi hok c hc
    cases i with
    | zero =>
      simp only [List.getD_cons_zero] at hok
      have hp : priorLinesSucc checker (sec :: rest) 0 = 0 := by
        simp [priorLinesSucc]
      simp only [specMergeFrom, hok, hp, Nat.add_zero]
      exact List.mem_append_left _
        (List.mem_map_of_mem (fun c => { c with line := c.line + offset }) hc)
    | succ j =>
      simp only [List.getD_cons_succ] at hok
      have hj : j < rest.length := by simpa using hi
      cases hc2 : checker sec with
      | ok r2 =>
        rw [priorLinesSucc_cons_ok checker sec rest j (by simp [isOkE, hc2])]
        simp only [specMergeFrom, hc2]
        have hmem := ih j (offset + linesOf sec) r hj hok c hc
        have harith : c.line + offset + (linesOf sec + priorLinesSucc checker rest j)
            = c.line + (offset + linesOf sec) + priorLinesSucc checker rest j := by
          omega
        rw [harith]
        exact List.mem_append_right _ hmem
      | error e2 =>
        rw [priorLinesSucc_cons_err checker sec rest j (by simp [isOkE, hc2])]
        simp only [specMergeFrom, hc2]
        exact ih j offset r hj hok c hc

/-- Membership of a successful chunk's formatting issues in the reference
merge, offset by the base plus the line count of prior successful
chunks. -/
theorem mem_issues_specMergeFrom
    (checker : String → Except String SpellCheckResult) :
    ∀ (secs : List String) (i offset : Nat) (r : SpellCheckResult),
      i < secs.length → checker (secs.getD i "") = .ok r →
      ∀ x ∈ r.formattingIssues,
        ({ x with line := x.line + offset + priorLinesSucc checker secs i } : FormattingIssue)
          ∈ (specMergeFrom checker offset secs).formattingIssues := by
  intro secs
  induction secs with
  | nil => intro i offset r hi; simp at hi
  | cons sec rest ih =>
    intro i offset r hi hok x hx
    cases i with
    | zero =>
      simp only [List.getD_cons_zero] at hok
      have hp : priorLinesSucc checker (sec :: rest) 0 = 0 := by
        simp [priorLinesSucc]
      simp only [specMergeFrom, hok, hp, Nat.add_zero]
      exact List.mem_append_left _
        (List.mem_map_of_mem (fun x => { x with line := x.line + offset }) hx)
    | succ j =>
      simp only [List.getD_cons_succ] at hok
      have hj : j < rest.length := by simpa using hi
      cases hc2 : checker sec with
      | ok r2 =>
        rw [priorLinesSucc_cons_ok checker sec rest j (by simp [isOkE, hc2])]
        simp only [specMergeFrom, hc2]
        have hmem := ih j (offset + linesOf sec) r hj hok x hx
        have harith : x.line + offset + (linesOf sec + priorLinesSucc checker rest j)
            = x.line + (offset + linesOf sec) + priorLinesSucc checker rest j := by
          omega
        rw [harith]
        exact List.mem_append_right _ hmem
      | error e2 =>
        rw [priorLinesSucc_cons_err checker sec rest j (by simp [isOkE, hc2])]
        simp only [specMergeFrom, hc2]
        exact ih j offset r hj hok x hx

/-- Dropping a rejected chunk from the list does not change the reference
merge: a rejected chunk contributes nothing and does not advance the
offset. -/
theorem specMergeFrom_eraseIdx (checker : String → Except String SpellCheckResult) :
    ∀ (secs : List String) (k offset : Nat) (e : String),
      k < secs.length → checker (secs.getD k "") = .error e →
      specMergeFrom checker offset secs =
        specMergeFrom checker offset (secs.eraseIdx k) := by
  intro secs
  induction secs with
  | nil => intro k offset e hk; simp at hk
  | cons sec rest ih =>
    intro k offset e hk hfail
    cases k with
    | zero =>
      simp only [List.getD_cons_zero] at hfail
      simp [specMergeFrom, hfail, List.eraseIdx]
    | succ j =>
      have hj : j < rest.length := by simpa using hk
      simp only [List.getD_cons_succ] at hfail
      cases hc : checker sec with
      | ok r =>
        simp only [List.eraseIdx, specMergeFrom, hc]
        rw [ih j (offset + linesOf sec) e hj hfail]
      | error e2 =>
        simp only [List.eraseIdx, specMergeFrom, hc]
        exact ih j offset e hj hfail

/-- Every member of a list is reachable through `getD` at some index. -/
theorem exists_getD_of_mem :
    ∀ (l : List String) (s : String), s ∈ l →
      ∃ j, j < l.length ∧ l.getD j "" = s := by
  intro l
  induction l with
  | nil => intro s h; simp at h
  | cons x rest ih =>
    intro s h
    rcases List.mem_cons.mp h with h | h
    · exact ⟨0, by simp, by simp [h]⟩
    · obtain ⟨j, hj, hg⟩ := ih s h
      exact ⟨j + 1, by simpa using hj, by simpa using hg⟩

/-- Every member of `l.eraseIdx k` sits in `l` at an index other than `k`. -/
theorem exists_index_of_mem_eraseIdx :
    ∀ (l : List String) (k : Nat) (s : String), s ∈ l.eraseIdx k →
      ∃ j, j < l.length ∧ j ≠ k ∧ l.getD j "" = s := by
  intro l
  induction l with
  | nil => intro k s h; simp [List.eraseIdx] at h
  | cons x rest ih =>
    intro k s h
    cases k with
    | zero =>
      simp only [List.eraseIdx] at h
      obtain ⟨j, hj, hg⟩ := exists_getD_of_mem rest s h
      exact ⟨j + 1, by simpa using hj, by simp, by simpa using hg⟩
    | succ m =>
      simp only [List.eraseIdx] at h
      rcases List.mem_cons.mp h with h | h
      · exact ⟨0, by simp, by simp, by simp [h]⟩
      · obtain ⟨j, hj, hne, hg⟩ := ih m s h
        exact ⟨j + 1, by simpa using hj, by simpa using hne, by simpa using hg⟩

/-- C1, counterexample: for the 11-character document `doc2` (split into the
two chunks `"aaa"` and `"# b\nccc"`) and a checker that rejects the first
chunk and reports a line-3 correction on the second, the returned line is
3 (the failed chunk's line count is never added), not 3 + 1 as the
claim's all-prior-chunks offset rule demands. -/
theorem c1_counterexample :
    2 ≤ (sectionsOf ctx4 doc2).length ∧
    ¬ claimC1AllPrior failFirstChecker ctx4 doc2 := by
  constructor
  · decide
  · unfold claimC1AllPrior
    decide

/-- C1, amended: in a multi-chunk `FullChunkedStrategy.check` run, every
correction and formatting issue of a chunk whose checker call succeeds
appears in the returned result with its line shifted by the cumulative
newline-delimited line count of the prior chunks WHOSE CHECKER CALL
SUCCEEDED (a rejected chunk does not advance the offset). -/
theorem c1_line_offset_prior_successful
    (checker : String → Except String SpellCheckResult) (ctx : Ctx)
    (content : String) (i : Nat) (r : SpellCheckResult)
    (hbig : chunkSizeOf ctx < content.length)
    (h2 : 2 ≤ (sectionsOf ctx content).length)
    (hi : i < (sectionsOf ctx content).length)
    (hok : checker ((sectionsOf ctx content).getD i "") = .ok r) :
    (∀ c ∈ r.corrections,
      ({ c with line := c.line + priorLinesSucc checker (sectionsOf ctx content) i } :
          Correction)
        ∈ (checkResultOf (fullChunkedCheck checker ctx content)).corrections) ∧
    (∀ x ∈ r.formattingIssues,
      ({ x with line := x.line + priorLinesSucc checker (sectionsOf ctx content) i } :
          FormattingIssue)
        ∈ (checkResultOf (fullChunkedCheck checker ctx content)).formattingIssues) := by
  have hres := fullChunkedCheck_result_of_big checker ctx content hbig
  constructor
  · intro c hc
    have hmem := mem_corrections_specMergeFrom checker (sectionsOf ctx content)
      i 0 r hi hok c hc
    simp only [checkResultOf, hres]
    simpa using hmem
  · intro x hx
    have hmem := mem_issues_specMergeFrom checker (sectionsOf ctx content)
      i 0 r hi hok x hx
    simp only [checkResultOf, hres]
    simpa using hmem

/-- C1 witness: for `doc2` with the all-successful checker, chunk 1's line-3
correction appears shifted by the single line of chunk 0. -/
theorem c1_line_offset_prior_successful_witness :
    chunkSizeOf ctx4 < doc2.length ∧
    2 ≤ (sectionsOf ctx4 doc2).length ∧
    1 < (sectionsOf ctx4 doc2).length ∧
    okChecker ((sectionsOf ctx4 doc2).getD 1 "") = .ok ⟨[corr3], []⟩ ∧
    ((∀ c ∈ (⟨[corr3], []⟩ : SpellCheckResult).corrections,
      ({ c with line := c.line + priorLinesSucc okChecker (sectionsOf ctx4 doc2) 1 } :
          Correction)
        ∈ (checkResultOf (fullChunkedCheck okChecker ctx4 doc2)).corrections) ∧
    (∀ x ∈ (⟨[corr3], []⟩ : SpellCheckResult).formattingIssues,
      ({ x with line := x.line + priorLinesSucc okChecker (sectionsOf ctx4 doc2) 1 } :
          FormattingIssue)
        ∈ (checkResultOf (fullChunkedCheck okChecker ctx4 doc2)).formattingIssues)) :=
  ⟨by decide, by decide, by decide, rfl,
   c1_line_offset_prior_successful okChecker ctx4 doc2 1 ⟨[corr3], []⟩
     (by decide) (by decide) (by decide) rfl⟩

/-- C2, counterexample: for `doc2`, with the checker rejecting exactly chunk 0
(`"aaa"`, one line) and succeeding on chunk 1, the run returns chunk 1's
correction at line 3, not at line 4 as it would carry in a fully
successful run — the returned result is NOT the full-run-offset union of
the surviving chunks. -/
theorem c2_counterexample :
    failFirstChecker ((sectionsOf ctx4 doc2).getD 0 "") = .error "network error" ∧
    (∀ j, j < (sectionsOf ctx4 doc2).length → j ≠ 0 →
      isOkE (failFirstChecker ((sectionsOf ctx4 doc2).getD j "")) = true) ∧
    ¬ claimC2FullRunUnion failFirstChecker ctx4 doc2 0 := by
  refine ⟨by decide, by decide, ?_⟩
  unfold claimC2FullRunUnion
  decide

/-- C2, amended: when the checker rejects exactly one chunk `k` out of a
multi-chunk run, `check` still resolves and returns the reference merge of
the remaining chunks in order — each surviving chunk offset by the
cumulative line count of the prior SURVIVING chunks only, so chunks after
the failed one carry lines smaller than in a fully successful run by the
failed chunk's line count; the failed chunk contributes nothing and every
surviving chunk's checker call succeeds. -/
theorem c2_failed_chunk_isolation
    (checker : String → Except String SpellCheckResult) (ctx : Ctx)
    (content : String) (k : Nat) (e : String)
    (hbig : chunkSizeOf ctx < content.length)
    (hk : k < (sectionsOf ctx content).length)
    (hfail : checker ((sectionsOf ctx content).getD k "") = .error e)
    (hok : ∀ j, j < (sectionsOf ctx content).length → j ≠ k →
      isOkE (checker ((sectionsOf ctx content).getD j "")) = true) :
    (fullChunkedCheck checker ctx content).result =
      .ok (specMergeFrom checker 0 ((sectionsOf ctx content).eraseIdx k)) ∧
    ∀ s ∈ (sectionsOf ctx content).eraseIdx k, isOkE (checker s) = true := by
  constructor
  · rw [fullChunkedCheck_result_of_big checker ctx content hbig,
      specMergeFrom_eraseIdx checker (sectionsOf ctx content) k 0 e hk hfail]
  · intro s hs
    obtain ⟨j, hj, hne, hget⟩ :=
      exists_index_of_mem_eraseIdx (sectionsOf ctx content) k s hs
    have := hok j hj hne
    rwa [hget] at this

/-- C2 witness: for `doc2` with the checker rejecting exactly chunk 0, the
run resolves with the reference merge of the single surviving chunk. -/
theorem c2_failed_chunk_isolation_witness :
    chunkSizeOf ctx4 < doc2.length ∧
    0 < (sectionsOf ctx4 doc2).length ∧
    failFirstChecker ((sectionsOf ctx4 doc2).getD 0 "") = .error "network error" ∧
    (∀ j, j < (sectionsOf ctx4 doc2).length → j ≠ 0 →
      isOkE (failFirstChecker ((sectionsOf ctx4 doc2).getD j "")) = true) ∧
    ((fullChunkedCheck failFirstChecker ctx4 doc2).result =
      .ok (specMergeFrom failFirstChecker 0 ((sectionsOf ctx4 doc2).eraseIdx 0)) ∧
    ∀ s ∈ (sectionsOf ctx4 doc2).eraseIdx 0, isOkE (failFirstChecker s) = true) :=
  ⟨by decide, by decide, by decide, by decide,
   c2_failed_chunk_isolation failFirstChecker ctx4 doc2 0 "network error"
     (by decide) (by decide) (by decide) (by decide)⟩

/-- The piece count of a JS newline split is the newline count plus one. -/
theorem jsSplitNewline_length (s : String) :
    (jsSplitNewline s).length = s.data.count '\n' + 1 :=
  linesOf_eq_count s

/-- C3, counterexample: for the two-character document `"ab"` checked as a
single (first) section with a checker reporting a line-1 correction, the
returned line is 2, not the unchanged 1 the claim demands for the first
section — `''.split('\n').length` is 1, not 0. -/
theorem c3_counterexample :
    ((incCheck corr1Checker settingsInc5 "ab" ctx4).fst.corrections.map
      fun c => c.line) = [2] ∧
    ¬ (((incCheck corr1Checker settingsInc5 "ab" ctx4).fst.corrections.map
      fun c => c.line) = [1]) := by
  refine ⟨by decide, by decide⟩

/-- C3, amended: every correction and formatting issue
`IncrementalStrategy.checkNextSection` returns for a section carries
line = (checker-reported in-section line) + (number of newline characters
in the document text preceding the section's start) + 1; in particular for
the first section (empty preceding text) every line number is incremented
by exactly one, not returned unchanged. -/
theorem c3_incremental_offset
    (checker : String → Except String SpellCheckResult) (st : IncState)
    (content : String) (ctx : Ctx) (r : SpellCheckResult)
    (hlt : st.currentSection < st.totalSections)
    (hok : checker (sectionContentOf st content) = .ok r) :
    (checkNextSection checker st content ctx).fst.corrections =
      r.corrections.map (fun c => { c with line := c.line +
        ((jsSubstring content 0 (st.currentSection * st.sectionSize)).data.count '\n'
          + 1) }) ∧
    (checkNextSection checker st content ctx).fst.formattingIssues =
      r.formattingIssues.map (fun x => { x with line := x.line +
        ((jsSubstring content 0 (st.currentSection * st.sectionSize)).data.count '\n'
          + 1) }) ∧
    (st.currentSection = 0 →
      (checkNextSection checker st content ctx).fst.corrections =
        r.corrections.map (fun c => { c with line := c.line + 1 })) := by
  have hc : ¬ (st.totalSections ≤ st.currentSection) := by omega
  have h1 : (checkNextSection checker st content ctx).fst.corrections =
      r.corrections.map (fun c => { c with line := c.line +
        ((jsSubstring content 0 (st.currentSection * st.sectionSize)).data.count '\n'
          + 1) }) := by
    simp only [checkNextSection, if_neg hc, hok, adjustResult, jsSplitNewline_length]
  have h2 : (checkNextSection checker st content ctx).fst.formattingIssues =
      r.formattingIssues.map (fun x => { x with line := x.line +
        ((jsSubstring content 0 (st.currentSection * st.sectionSize)).data.count '\n'
          + 1) }) := by
    simp only [checkNextSection, if_neg hc, hok, adjustResult, jsSplitNewline_length]
  refine ⟨h1, h2, ?_⟩
  intro h0
  rw [h1, h0]
  have hempty : jsSubstring content 0 (0 * st.sectionSize) = "" := by
    simp [jsSubstring]
  rw [hempty]
  simp

/-- C3 witness: the first (and only) section of `"ab"` at section size 5,
with a line-1 correction reported, comes back at line 2 = 1 + (0 newlines
before position 0) + 1. -/
theorem c3_incremental_offset_witness :
    incSt0.currentSection < incSt0.totalSections ∧
    corr1Checker (sectionContentOf incSt0 "ab") = .ok ⟨[corr1], []⟩ ∧
    ((checkNextSection corr1Checker incSt0 "ab" ctx4).fst.corrections =
      (⟨[corr1], []⟩ : SpellCheckResult).corrections.map (fun c => { c with line := c.line +
        ((jsSubstring "ab" 0 (incSt0.currentSection * incSt0.sectionSize)).data.count '\n'
          + 1) }) ∧
    (checkNextSection corr1Checker incSt0 "ab" ctx4).fst.formattingIssues =
      (⟨[corr1], []⟩ : SpellCheckResult).formattingIssues.map (fun x => { x with line := x.line +
        ((jsSubstring "ab" 0 (incSt0.currentSection * incSt0.sectionSize)).data.count '\n'
          + 1) }) ∧
    (incSt0.currentSection = 0 →
      (checkNextSection corr1Checker incSt0 "ab" ctx4).fst.corrections =
        (⟨[corr1], []⟩ : SpellCheckResult).corrections.map
          (fun c => { c with line := c.line + 1 }))) :=
  ⟨by decide, rfl,
   c3_incremental_offset corr1Checker incSt0 "ab" ctx4 ⟨[corr1], []⟩ (by decide) rfl⟩

/-- C10: a checker rejection inside `checkNextSection` is caught: the call
resolves with the empty result, the session state is returned unchanged
(`currentSection` not advanced, `allResults` not extended), and no
`onSectionComplete` callback fires — so the next call re-attempts the same
section. -/
theorem c10_incremental_error_preserves_state
    (checker : String → Except String SpellCheckResult) (st : IncState)
    (content : String) (ctx : Ctx) (e : String)
    (hlt : st.currentSection < st.totalSections)
    (herr : checker (sectionContentOf st content) = .error e) :
    (checkNextSection checker st content ctx).fst = ⟨[], []⟩ ∧
    (checkNextSection checker st content ctx).snd.fst = st ∧
    ∀ a b r, Event.sectionComplete a b r ∉
      (checkNextSection checker st content ctx).snd.snd := by
  have hc : ¬ (st.totalSections ≤ st.currentSection) := by omega
  refine ⟨?_, ?_, ?_⟩
  · simp only [checkNextSection, if_neg hc, herr]
  · simp only [checkNextSection, if_neg hc, herr]
  · intro a b r hmem
    simp only [checkNextSection, if_neg hc, herr] at hmem
    cases hp : ctx.hasOnProgress <;> simp [hp] at hmem

/-- C10 witness: a rejecting checker on the initialised `"ab"` session
returns the empty result, leaves the state untouched, and fires no
`onSectionComplete`. -/
theorem c10_incremental_error_preserves_state_witness :
    incSt0.currentSection < incSt0.totalSections ∧
    (fun _ : String => (.error "boom" : Except String SpellCheckResult))
      (sectionContentOf incSt0 "ab") = .error "boom" ∧
    ((checkNextSection (fun _ => .error "boom") incSt0 "ab" ctx4).fst = ⟨[], []⟩ ∧
    (checkNextSection (fun _ => .error "boom") incSt0 "ab" ctx4).snd.fst = incSt0 ∧
    ∀ a b r, Event.sectionComplete a b r ∉
      (checkNextSection (fun _ => .error "boom") incSt0 "ab" ctx4).snd.snd) :=
  ⟨by decide, rfl,
   c10_incremental_error_preserves_state (fun _ => .error "boom") incSt0 "ab" ctx4
     "boom" (by decide) rfl⟩

/-- C8: when the content fits in one chunk, `FullChunkedStrategy.check` makes
exactly one checker call, on the whole content, and resolves with that
call's outcome unmodified — no offset adjustment, no splitting, no
progress or section events. -/
theorem c8_single_chunk_passthrough
    (checker : String → Except String SpellCheckResult) (ctx : Ctx)
    (content : String) (hle : content.length ≤ chunkSizeOf ctx) :
    (fullChunkedCheck checker ctx content).result = checker content ∧
    (fullChunkedCheck checker ctx content).events = [Event.checkerCall content] := by
  unfold fullChunkedCheck
  rw [if_pos hle]
  exact ⟨rfl, rfl⟩

/-- C8 witness: the two-character content `"hi"` fits in `ctx4`'s chunk size
4 and is passed through in one call. -/
theorem c8_single_chunk_passthrough_witness :
    ("hi" : String).length ≤ chunkSizeOf ctx4 ∧
    ((fullChunkedCheck okChecker ctx4 "hi").result = okChecker "hi" ∧
    (fullChunkedCheck okChecker ctx4 "hi").events = [Event.checkerCall "hi"]) :=
  ⟨by decide, c8_single_chunk_passthrough okChecker ctx4 "hi" (by decide)⟩

/-- C7: `SpellCheckStrategyFactory.createStrategy` is a closed enumeration:
any mode outside {auto, full, incremental} throws the unknown-mode error
and never yields a strategy, while each recognised mode yields its
corresponding strategy variant. -/
theorem c7_factory_closed_modes (mode : String) :
    (mode ≠ "auto" → mode ≠ "full" → mode ≠ "incremental" →
      createStrategy mode = .error ("Unknown spell check mode: " ++ mode)) ∧
    createStrategy "full" = .ok .fullChunked ∧
    createStrategy "incremental" = .ok .incremental ∧
    createStrategy "auto" = .ok .auto := by
  refine ⟨?_, by decide, by decide, by decide⟩
  intro ha hf hi
  unfold createStrategy
  rw [if_neg hf, if_neg hi, if_neg ha]

/-- C7 witness: the unrecognised mode `"bogus"` is rejected with the explicit
unknown-mode error. -/
theorem c7_factory_closed_modes_witness :
    (("bogus" : String) ≠ "auto" ∧ ("bogus" : String) ≠ "full" ∧
      ("bogus" : String) ≠ "incremental") ∧
    createStrategy "bogus" = .error ("Unknown spell check mode: " ++ "bogus") :=
  ⟨by decide,
   (c7_factory_closed_modes "bogus").1 (by decide) (by decide) (by decide)⟩

/-- Length of a string built from a character list. -/
theorem string_length_mk (l : List Char) : (String.mk l).length = l.length := rfl

/-- The Auto first section takes exactly min(5000, length) characters. -/
theorem autoFirstSection_length (s : String) :
    (autoFirstSection s).length = min 5000 s.length := by
  have hd : s.data.length = s.length := rfl
  simp [autoFirstSection, jsSubstring, string_length_mk]

/-- C9: `AutoStrategy.check` issues exactly one checker call, on the
min(5000, length)-character first section, always returns that call's
result (it never escalates to full-document checking), and emits the
`onModeSwitchSuggestion('full', …)` callback exactly when the callback is
supplied and the measured error density reaches the threshold. -/
theorem c9_auto_first_section_only
    (checker : String → Except String SpellCheckResult) (settings : Settings)
    (ctx : Ctx) (content : String) (r : SpellCheckResult)
    (hne : content.length ≠ 0)
    (hok : checker (autoFirstSection content) = .ok r) :
    (autoCheck checker settings ctx content).result = .ok r ∧
    checkerCallsOf (autoCheck checker settings ctx content).events =
      [autoFirstSection content] ∧
    (Event.modeSwitchSuggestion "full" ∈ (autoCheck checker settings ctx content).events ↔
      (ctx.hasOnModeSwitchSuggestion = true ∧
        thresholdOf settings ≤ errorDensityOf r (autoFirstSection content).length)) := by
  have hFlen := autoFirstSection_length content
  have hF0 : ¬ ((autoFirstSection content).length = 0) := by omega
  simp only [autoCheck, hok, hF0, if_false, ite_false]
  by_cases h5 : content.length ≤ 5000 <;>
    cases hd : decide (errorDensityOf r (autoFirstSection content).length ≥
        thresholdOf settings) <;>
      cases hm : ctx.hasOnModeSwitchSuggestion <;>
        cases hp : ctx.hasOnProgress <;>
          first
          | simp [h5, hm, hp, checkerCallsOf, of_decide_eq_false hd]
          | simp [h5, hm, hp, checkerCallsOf, of_decide_eq_true hd]

/-- C9 witness: a 5-character document with one correction in the first
section has density 200 errors/k ≥ the default threshold 3, so the run
returns the first-section result, calls the checker once, and emits the
full-mode suggestion. -/
theorem c9_auto_first_section_only_witness :
    ("aaaaa" : String).length ≠ 0 ∧
    okChecker (autoFirstSection "aaaaa") = .ok ⟨[corr3], []⟩ ∧
    ((autoCheck okChecker settings4 ctx4 "aaaaa").result = .ok ⟨[corr3], []⟩ ∧
    checkerCallsOf (autoCheck okChecker settings4 ctx4 "aaaaa").events =
      [autoFirstSection "aaaaa"] ∧
    (Event.modeSwitchSuggestion "full" ∈
        (autoCheck okChecker settings4 ctx4 "aaaaa").events ↔
      (ctx4.hasOnModeSwitchSuggestion = true ∧
        thresholdOf settings4 ≤
          errorDensityOf ⟨[corr3], []⟩ (autoFirstSection "aaaaa").length))) :=
  ⟨by decide, rfl,
   c9_auto_first_section_only okChecker settings4 ctx4 "aaaaa" ⟨[corr3], []⟩ (by decide) rfl⟩

/-- Reading back the key just written finds the just-written entry. -/
theorem mapGet_mapSet {V : Type} (c : Cache V) (k : String) (e : CacheEntry V) :
    mapGet (mapSet c k e) k = some e := by
  induction c with
  | nil => simp [mapSet, mapGet]
  | cons p rest ih =>
    obtain ⟨k1, e1⟩ := p
    by_cases h : k1 = k
    · simp [mapSet, mapGet, h]
    · simp [mapSet, mapGet, h, ih]

/-- C4, counterexample: an entry written at time 0 with stored ttl 1000, read
at time 500 with caller-supplied ttl 100 (which has elapsed, while the
stored ttl has not), is still returned — it is not treated as stale, so
the caller-supplied read-time ttl is not consulted at all, contrary to the
claim. -/
theorem c4_counterexample :
    (100 : Int) < 500 - 0 ∧
    ¬ ((1000 : Int) < 500 - 0) ∧
    cacheGet true c4cache "k" 100 500 = .ok (some 42, c4cache) ∧
    ∀ rest : Cache Nat, ¬ (cacheGet true c4cache "k" 100 500 = .ok (none, rest)) := by
  refine ⟨by decide, by decide, by decide, ?_⟩
  intro rest h
  rw [show cacheGet true c4cache "k" 100 500 = .ok (some 42, c4cache) from by decide] at h
  simp at h

/-- C4, amended: staleness in `CacheManager.get` is decided solely by the
entry's stored ttl (the one supplied to `set`); the caller-supplied ttl
argument is ignored — `get`'s outcome is identical for any two caller
ttls.  Reading immediately after `set(key, value, ttl ≥ 0)` returns the
value; once the STORED ttl has elapsed, `get` evicts the entry and reports
it absent. -/
theorem c4_ttl_stored_only {V : Type} :
    (∀ (c : Cache V) (key : String) (t1 t2 now : Int) (w : Bool),
      cacheGet w c key t1 now = cacheGet w c key t2 now) ∧
    (∀ (c : Cache V) (key : String) (v : V) (ttl rttl now : Int),
      cacheSet true c key v ttl now = .ok (mapSet c key ⟨v, now, ttl⟩) ∧
      (0 ≤ ttl →
        cacheGet true (mapSet c key ⟨v, now, ttl⟩) key rttl now =
          .ok (some v, mapSet c key ⟨v, now, ttl⟩))) ∧
    (∀ (c : Cache V) (key : String) (rttl now : Int) (en : CacheEntry V),
      mapGet c key = some en → en.ttl < now - en.timestamp →
      cacheGet true c key rttl now = .ok (none, mapDelete c key)) := by
  refine ⟨fun c key t1 t2 now w => rfl, ?_, ?_⟩
  · intro c key v ttl rttl now
    refine ⟨rfl, fun h => ?_⟩
    simp only [cacheGet, mapGet_mapSet]
    rw [if_neg (by omega)]
  · intro c key rttl now en hget hlt
    simp only [cacheGet, hget]
    rw [if_pos (by omega)]
    rfl

/-- C4 witness: caller-ttl irrelevance, set-then-get, and stored-ttl expiry
at concrete instants. -/
theorem c4_ttl_stored_only_witness :
    (cacheGet true c4cache "k" 100 500 = cacheGet true c4cache "k" 999 500) ∧
    (cacheSet true ([] : Cache Nat) "k" 42 1000 0 = .ok (mapSet [] "k" ⟨42, 0, 1000⟩) ∧
      (0 ≤ (1000 : Int) ∧
        cacheGet true (mapSet ([] : Cache Nat) "k" ⟨42, 0, 1000⟩) "k" 100 0 =
          .ok (some 42, mapSet [] "k" ⟨42, 0, 1000⟩))) ∧
    (mapGet ([("k", ⟨42, 0, 10⟩)] : Cache Nat) "k" = some ⟨42, 0, 10⟩ ∧
      (10 : Int) < 500 - 0 ∧
      cacheGet true ([("k", ⟨42, 0, 10⟩)] : Cache Nat) "k" 7 500 =
        .ok (none, mapDelete [("k", ⟨42, 0, 10⟩)] "k")) :=
  ⟨(@c4_ttl_stored_only Nat).1 c4cache "k" 100 999 500 true,
   ⟨((@c4_ttl_stored_only Nat).2.1 [] "k" 42 1000 100 0).1,
    ⟨by decide, ((@c4_ttl_stored_only Nat).2.1 [] "k" 42 1000 100 0).2 (by decide)⟩⟩,
   ⟨by decide, by decide,
    (@c4_ttl_stored_only Nat).2.2 [("k", ⟨42, 0, 10⟩)] "k" 7 500 ⟨42, 0, 10⟩
      (by decide) (by decide)⟩⟩

/-- C5 (code bug, evaluated): the key `"abc"` matches the pattern `"abc"`,
yet `invalidate("abc")` leaves the entry in place — the loop destructures
only the first character `"a"` of each key, tests the pattern against that
single character, and deletes the (non-existent) single-character key. -/
theorem c5_invalidate_eval :
    regexTest "abc" "abc" = true ∧
    cacheInvalidate true ([("abc", ⟨7, 0, 50⟩)] : Cache Nat) "abc" =
      .ok [("abc", ⟨7, 0, 50⟩)] := by
  refine ⟨by decide, by decide⟩

/-- C6, counterexample: a `set` call whose underlying storage write fails
does not return normally — the write rejection propagates to the caller
(`saveCache` has no try/catch), contrary to the claim that every cache
operation absorbs persistence failures. -/
theorem c6_counterexample :
    isOkE (cacheSet false ([] : Cache Nat) "k" 5 100 0) = false ∧
    cacheSet false ([] : Cache Nat) "k" 5 100 0 = .error "storage write failed" := by
  refine ⟨by decide, by decide⟩

/-- C6, amended: cache LOAD failures are absorbed — `loadCache` always
resolves, degrading to an empty cache on a read/parse failure.  But
storage WRITE failures inside `saveCache` are not caught and propagate to
the callers of `set`, `invalidate`, `clear`, and to `get` when it evicts
an expired entry; only a `get` that does not evict (entry absent, or entry
still fresh) performs no write and cannot fail. -/
theorem c6_persistence_error_paths {V : Type} :
    (∀ (r : Except String (Option (Cache V))) (cur : Cache V),
      isOkE (loadCacheE r cur) = true) ∧
    (∀ (e : String) (cur : Cache V), loadCacheE (.error e) cur = .ok []) ∧
    (∀ (c : Cache V) (k : String) (v : V) (ttl now : Int),
      cacheSet false c k v ttl now = .error "storage write failed") ∧
    (∀ (c : Cache V) (p : String),
      cacheInvalidate false c p = .error "storage write failed") ∧
    (∀ c : Cache V, cacheClear false c = .error "storage write failed") ∧
    (∀ (c : Cache V) (k : String) (rttl now : Int) (en : CacheEntry V),
      mapGet c k = some en → en.ttl < now - en.timestamp →
      cacheGet false c k rttl now = .error "storage write failed") ∧
    (∀ (c : Cache V) (k : String) (rttl now : Int) (en : CacheEntry V),
      mapGet c k = some en → now - en.timestamp ≤ en.ttl →
      cacheGet false c k rttl now = .ok (some en.value, c)) := by
  refine ⟨?_, fun e cur => rfl, fun c k v ttl now => rfl, fun c p => rfl,
    fun c => rfl, ?_, ?_⟩
  · intro r cur
    rcases r with e | v
    · rfl
    · rcases v with _ | parsed <;> rfl
  · intro c k rttl now en hget hlt
    simp only [cacheGet, hget]
    rw [if_pos (by omega)]
    rfl
  · intro c k rttl now en hget hle
    simp only [cacheGet, hget]
    rw [if_neg (by omega)]

/-- C6 witness: the load path absorbs a failure (empty cache), while failing
writes surface from `set` and from an evicting `get`, and a non-evicting
`get` still succeeds with the write broken. -/
theorem c6_persistence_error_paths_witness :
    isOkE (loadCacheE (.error "read failed") ([("x", ⟨1, 0, 5⟩)] : Cache Nat)) = true ∧
    loadCacheE (.error "read failed") ([("x", ⟨1, 0, 5⟩)] : Cache Nat) = .ok [] ∧
    cacheSet false ([] : Cache Nat) "k" 42 100 0 = .error "storage write failed" ∧
    cacheInvalidate false ([] : Cache Nat) "p" = .error "storage write failed" ∧
    cacheClear false ([] : Cache Nat) = .error "storage write failed" ∧
    (mapGet ([("k", ⟨42, 0, 10⟩)] : Cache Nat) "k" = some ⟨42, 0, 10⟩ ∧
      (10 : Int) < 500 - 0 ∧
      cacheGet false ([("k", ⟨42, 0, 10⟩)] : Cache Nat) "k" 7 500 =
        .error "storage write failed") ∧
    (mapGet ([("k", ⟨42, 0, 10⟩)] : Cache Nat) "k" = some ⟨42, 0, 10⟩ ∧
      (5 : Int) - 0 ≤ 10 ∧
      cacheGet false ([("k", ⟨42, 0, 10⟩)] : Cache Nat) "k" 7 5 =
        .ok (some 42, [("k", ⟨42, 0, 10⟩)])) :=
  ⟨(@c6_persistence_error_paths Nat).1 (.error "read failed") [("x", ⟨1, 0, 5⟩)],
   (@c6_persistence_error_paths Nat).2.1 "read failed" [("x", ⟨1, 0, 5⟩)],
   (@c6_persistence_error_paths Nat).2.2.1 [] "k" 42 100 0,
   (@c6_persistence_error_paths Nat).2.2.2.1 [] "p",
   (@c6_persistence_error_paths Nat).2.2.2.2.1 [],
   ⟨by decide, by decide,
    (@c6_persistence_error_paths Nat).2.2.2.2.2.1 [("k", ⟨42, 0, 10⟩)] "k" 7 500
      ⟨42, 0, 10⟩ (by decide) (by decide)⟩,
   ⟨by decide, by decide,
    (@c6_persistence_error_paths Nat).2.2.2.2.2.2 [("k", ⟨42, 0, 10⟩)] "k" 7 5
      ⟨42, 0, 10⟩ (by decide) (by decide)⟩⟩
